import Mathlib

/-!
A shallow embedding of the core of the rlisp interpreter
(`rlisp-core/src/expression.rs`, `context.rs`, `exception.rs`,
`intrinsics/macros.rs`, `intrinsics/functions.rs`, `quat.rs`, `util.rs`).

Modelling conventions:
* Rust `f64` is modelled as `ℚ`; the claims under study concern dispatch,
  error variants and environment structure, never IEEE rounding, so only
  the field operations matter.
* `im::ConsList` is modelled as `List` (head = front).  `ConsList::tail`
  returns an `Option` in Rust (`None` on the empty list); `optTail` mirrors
  that, while plain `List.tail` mirrors `tail().unwrap_or_default()`.
* The `Context`'s scope vector keeps the innermost scope at the *head* of
  the list (Rust keeps it at the back and iterates `.rev()`); all
  operations are mirrored under this order isomorphism.
* `HashMap` tables are modelled as association lists whose lookup takes
  the first match; `insert` replaces the binding for an existing key.
* Native function values (`Rc<Fn ...>`) stored in expressions are
  defunctionalised: `IntrinsicFn` / `MacroFn` are tags for exactly the
  native functions of the embedded subset, and `applyIntrinsic` /
  `applyMacro` interpret them with the bodies translated from the source.
* Rust panics (`unreachable!`, out-of-bounds `split_at`, debug-mode
  `usize` underflow of `len() - 1` on an empty call list) are modelled by
  the distinguished outcome `.panic`.  Recursion through the environment
  is unbounded in the source, so the evaluator takes explicit fuel and
  returns `.timeout` when it is exhausted; `.timeout` is an artifact of
  the embedding, never a behaviour of the program.
* Error-message strings interpolated with `format!` are reproduced with
  the display functions below; number formatting inside such messages is
  approximated by the `ℚ` representation (the claims only ever inspect
  error variants and codes, not message text).
-/

namespace Rlisp

/-- Immutable strings (`util::Str`). -/
abbrev Str := String

/-- `exception::Exception` — the closed error taxonomy of the language. -/
inductive Exception where
  | Arity (expected found : Nat)
  | Signature (expected found : Str)
  | Custom (code : Nat) (msg : Str)
  | Undefined (sym : Str)
  | Syntax (code : Nat) (msg : Str)
deriving DecidableEq, Repr

/-- `Exception::error_code`. -/
def Exception.errorCode : Exception → Nat
  | .Arity _ _ => 4
  | .Signature _ _ => 9
  | .Custom code _ => code
  | .Undefined _ => 1
  | .Syntax code _ => code

/-- `quat::Quat` — a quaternion `a + bi + cj + dk`. -/
structure Quat where
  a : ℚ
  b : ℚ
  c : ℚ
  d : ℚ
deriving DecidableEq, Repr

/-- `Quat::default()` — the zero quaternion. -/
def Quat.zero : Quat := ⟨0, 0, 0, 0⟩

/-- The multiplicative identity `Quat(1.0, 0.0, 0.0, 0.0)` used by `mul`. -/
def Quat.one : Quat := ⟨1, 0, 0, 0⟩

/-- `impl From<f64> for Quat` — the `(n,0,0,0)` embedding. -/
def Quat.ofNum (n : ℚ) : Quat := ⟨n, 0, 0, 0⟩

/-- `impl ops::Add for Quat` — componentwise addition. -/
def Quat.add (x y : Quat) : Quat :=
  ⟨x.a + y.a, x.b + y.b, x.c + y.c, x.d + y.d⟩

/-- `impl ops::Mul for Quat` — the Hamilton product. -/
def Quat.mul (x y : Quat) : Quat :=
  ⟨x.a * y.a - x.b * y.b - x.c * y.c - x.d * y.d,
   x.a * y.b + x.b * y.a + x.c * y.d - x.d * y.c,
   x.a * y.c - x.b * y.d + x.c * y.a + x.d * y.b,
   x.a * y.d + x.b * y.c - x.c * y.b + x.d * y.a⟩

/-- Tags for the native intrinsic functions of the embedded subset
(`intrinsics/functions.rs` plus the accessor/predicate closures generated
by `define_struct`); `applyIntrinsic` interprets them. -/
inductive IntrinsicFn where
  | addF
  | subF
  | mulF
  | divF
  | headF
  | tailF
  | structGet (i : Nat)
  | structCheck (id : Nat)
deriving DecidableEq, Repr

/-- Tags for the native special forms of the embedded subset
(`intrinsics/macros.rs` plus the constructor closure generated by
`define_struct`); `applyMacro` interprets them. -/
inductive MacroFn where
  | defineF
  | lambdaF
  | ifF
  | condF
  | letF
  | beginF
  | defineStructF
  | structMake (memberCount : Nat)
deriving DecidableEq, Repr

mutual

/-- `expression::Callable` — any value callable as a function. -/
inductive Callable where
  | Quote
  | Quasiquote
  | Unquote
  | Lambda (params : List Str) (body : Expression)
      (capture : Option (List (Str × Expression)))
  | Intrinsic (f : IntrinsicFn)
  | Macro (f : MacroFn)

/-- `expression::Expression` — the universal value/term type.  The
`Error` variant is spelled `Exception(..)` in `expression.rs` and
`Error(Rc<..>)` in `functions.rs`; both carry an `Exception` payload.
The struct payload `StructData { name, data }` is inlined. -/
inductive Expression where
  | bool (b : Bool)
  | num (n : ℚ)
  | str (s : Str)
  | symbol (s : Str)
  | cons (l : List Expression)
  | callable (c : Callable)
  | error (e : Exception)
  | struct (name : Str) (data : List Expression)
  | quaternion (q : Quat)

end

/-- `expression::Capture` — the by-value snapshot map of a closure. -/
abbrev Capture := List (Str × Expression)

/-- `Expression::type_of` (the `Quaternion` arm belongs to the snapshot
of `expression.rs` that carries that variant; its type name is taken
from the spec's glossary). -/
def Expression.typeOf : Expression → Str
  | .num _ => "num"
  | .bool _ => "bool"
  | .str _ => "string"
  | .cons _ => "cons"
  | .error _ => "error"
  | .symbol _ => "symbol"
  | .callable _ => "procedure"
  | .struct name _ => name
  | .quaternion _ => "quaternion"

/-- `Expression::is_nil`. -/
def Expression.isNil : Expression → Bool
  | .cons [] => true
  | _ => false

/-- `Expression::is_exception`. -/
def Expression.isError : Expression → Bool
  | .error _ => true
  | _ => false

/-- `Expression::is_callable`. -/
def Expression.isCallable : Expression → Bool
  | .callable _ => true
  | _ => false

/-- `ValidIdentifier::is_valid_identifier` for `Str`. -/
def validIdentifier (s : Str) : Bool :=
  match s with
  | "define" | "cond" | "lambda" | "if" | "let" => false
  | _ => true

/-- `ConsList::tail` — `none` on the empty list. -/
def optTail : List Expression → Option (List Expression)
  | [] => none
  | _ :: t => some t

/-- `util::nil()` — the value `'()`, i.e. `(quote ())`. -/
def nilExpr : Expression := .cons [.callable .Quote, .cons []]

/-- `Expression::default()`. -/
def defaultExpr : Expression := nilExpr

/-- `util::wrap_begin`. -/
def wrapBegin (l : List Expression) : Expression :=
  .cons (.symbol "begin" :: l)

/-- First-match lookup in an association table (`HashMap::get`). -/
def tableGet {α : Type} (table : List (Str × α)) (key : Str) : Option α :=
  match table with
  | [] => none
  | (k, v) :: rest => if k = key then some v else tableGet rest key

/-- `HashMap::insert` — replace the binding of an existing key, otherwise
add a new one. -/
def tablePut {α : Type} (table : List (Str × α)) (key : Str) (v : α) :
    List (Str × α) :=
  match table with
  | [] => [(key, v)]
  | (k, w) :: rest =>
      if k = key then (k, v) :: rest else (k, w) :: tablePut rest key v

/-- `context::Scope` — one frame of the environment stack. -/
structure Scope where
  bindings : List (Str × Expression)
  structs : List (Str × Nat)

/-- `Scope::default()`. -/
def Scope.empty : Scope := ⟨[], []⟩

/-- `context::Context` — the stack of lexical scopes.  The innermost
scope is the head of `scopes` (the Rust `Vec` keeps it last and every
operation iterates in reverse). -/
structure Context where
  scopes : List Scope
  structCount : Nat

/-- `Context::new()`. -/
def Context.new : Context := ⟨[Scope.empty], 0⟩

/-- `Context::get` — scan scopes from innermost to outermost. -/
def Context.get (ctx : Context) (key : Str) : Option Expression :=
  go ctx.scopes
where
  go : List Scope → Option Expression
    | [] => none
    | s :: rest =>
        match tableGet s.bindings key with
        | some v => some v
        | none => go rest

/-- `Context::insert` — bind in the current (innermost) scope; a no-op if
the scope stack is empty, as in the source (`last_mut().map(..)`). -/
def Context.insert (ctx : Context) (key : Str) (v : Expression) : Context :=
  match ctx.scopes with
  | [] => ctx
  | s :: rest => ⟨{ s with bindings := tablePut s.bindings key v } :: rest,
      ctx.structCount⟩

/-- `Context::define_struct` — register a fresh struct-type id under
`name` in the current scope; `none` when the scope stack is empty. -/
def Context.defineStructId (ctx : Context) (name : Str) :
    Option (Nat × Context) :=
  match ctx.scopes with
  | [] => none
  | s :: rest =>
      let id := ctx.structCount + 1
      some (id, ⟨{ s with structs := tablePut s.structs name id } :: rest, id⟩)

/-- `Context::get_struct_id`. -/
def Context.getStructId (ctx : Context) (name : Str) : Option Nat :=
  go ctx.scopes
where
  go : List Scope → Option Nat
    | [] => none
    | s :: rest =>
        match tableGet s.structs name with
        | some v => some v
        | none => go rest

/-- `Context::ascend_scope` — push a fresh scope. -/
def Context.ascendScope (ctx : Context) : Context :=
  ⟨Scope.empty :: ctx.scopes, ctx.structCount⟩

/-- `Context::descend_scope` — pop the innermost scope (`Vec::pop` is a
no-op on an empty stack). -/
def Context.descendScope (ctx : Context) : Context :=
  ⟨ctx.scopes.tail, ctx.structCount⟩

/-- Zero-padded 3-digit error-code text (`{:03}` in the `Display` of the
error variant). -/
def pad3 (n : Nat) : Str :=
  let s := toString n
  if s.length = 1 then "00" ++ s else if s.length = 2 then "0" ++ s else s

/-- `Display` for `Exception`. -/
def Exception.text : Exception → Str
  | .Arity expected found =>
      "arity mismatch: expected " ++ toString expected ++ ", found " ++
        toString found
  | .Signature expected found =>
      "signature mismatch: expected " ++ expected ++ ", found " ++ found
  | .Custom _ err => err
  | .Undefined sym => "undefined symbol: `" ++ sym ++ "`"
  | .Syntax _ desc => "syntax error: " ++ desc

mutual

/-- `impl fmt::Display for Expression`.  Numbers render through the `ℚ`
representation and quaternions through their components; everything else
follows the source arm for arm. -/
def Expression.display : Expression → Str
  | .bool b => if b then "true" else "false"
  | .num n => toString n
  | .str s => "\"" ++ s ++ "\""
  | .symbol s => s
  | .cons [.callable .Quote, body] => "'" ++ body.display
  | .cons [.callable .Quasiquote, body] => "`" ++ body.display
  | .cons [.callable .Unquote, body] => "," ++ body.display
  | .cons l => "(" ++ String.intercalate " " (displayList l) ++ ")"
  | .callable c =>
      match c with
      | .Quote => "quote"
      | .Quasiquote => "quasiquote"
      | .Unquote => "unquote"
      | _ => "<procedure>"
  | .error ex => "error[" ++ pad3 ex.errorCode ++ "]: " ++ ex.text
  | .struct name data =>
      "(make-" ++ name ++ String.join (displayList data |>.map (" " ++ ·)) ++ ")"
  | .quaternion q =>
      toString q.a ++ "+" ++ toString q.b ++ "i+" ++ toString q.c ++ "j+" ++
        toString q.d ++ "k"
termination_by e => sizeOf e
decreasing_by all_goals (simp_wf <;> omega)

/-- Renders every element of a list (the `iter().map(to_string)` calls of
the `Display` instance). -/
def displayList : List Expression → List Str
  | [] => []
  | e :: rest => e.display :: displayList rest
termination_by l => sizeOf l
decreasing_by all_goals (simp_wf <;> omega)

end

mutual

/-- `impl fmt::Debug for Expression`. -/
def Expression.debugText : Expression → Str
  | .bool b => "<Bool:" ++ (if b then "true" else "false") ++ ">"
  | .num n => "<Num:" ++ toString n ++ ">"
  | .str s => "<Str:\"" ++ s ++ "\">"
  | .symbol s => "<Symbol:" ++ s ++ ">"
  | .cons l => "<Cons:[" ++ String.intercalate ", " (debugList l) ++ "]>"
  | .struct name data =>
      "<" ++ name ++ ":[" ++ String.intercalate ", " (debugList data) ++ "]>"
  | other => other.display
termination_by e => sizeOf e
decreasing_by all_goals (simp_wf <;> omega)

/-- Debug-renders every element of a list. -/
def debugList : List Expression → List Str
  | [] => []
  | e :: rest => e.debugText :: debugList rest
termination_by l => sizeOf l
decreasing_by all_goals (simp_wf <;> omega)

end

/-- The `{:?}` rendering of a `ConsList` used by the "has no function to
call" message of `eval` (the `Debug` instance of the `im` crate,
approximated as a bracketed list of debug-rendered elements). -/
def consListDebug (l : List Expression) : Str :=
  "[" ++ String.intercalate ", " (debugList l) ++ "]"

mutual

/-- `Expression::extract_symbols_to_capture` — walk the body, snapshotting
the current value of every symbol bound in the context. -/
def extractSymbolsTo : Expression → Capture → Context → Capture
  | .symbol ident, cap, ctx =>
      match ctx.get ident with
      | some v => tablePut cap ident v
      | none => cap
  | .cons children, cap, ctx => extractSymbolsList children cap ctx
  | _, cap, _ => cap

/-- The loop over the children of a `Cons` node in
`extract_symbols_to_capture`. -/
def extractSymbolsList : List Expression → Capture → Context → Capture
  | [], cap, _ => cap
  | e :: rest, cap, ctx => extractSymbolsList rest (extractSymbolsTo e cap ctx) ctx

end

/-- `Expression::extract_symbols`. -/
def extractSymbols (e : Expression) (ctx : Context) : Capture :=
  extractSymbolsTo e [] ctx

/-- The `Result<Vec<f64>, &Expression>` collection at the top of `add`,
`mul`: all arguments as plain numbers, or the first non-number. -/
def collectNums : List Expression → Except Expression (List ℚ)
  | [] => .ok []
  | .num n :: rest => (collectNums rest).map (n :: ·)
  | other :: _ => .error other

/-- The quaternion retry collection of `add` and `mul`: numbers are
promoted through `Quat::from`, quaternions pass through, anything else is
the first offender. -/
def collectQuats : List Expression → Except Expression (List Quat)
  | [] => .ok []
  | .num n :: rest => (collectQuats rest).map (Quat.ofNum n :: ·)
  | .quaternion q :: rest => (collectQuats rest).map (q :: ·)
  | other :: _ => .error other

/-- The `Option<Vec<f64>>` collection over the tail operands of `sub` and
`div`: `none` as soon as any operand is not a plain number. -/
def collectNumsOpt : List Expression → Option (List ℚ)
  | [] => some []
  | .num n :: rest => (collectNumsOpt rest).map (n :: ·)
  | _ :: _ => none

/-- `functions::add` (`+`). -/
def addFn (args : List Expression) : Expression :=
  match collectNums args with
  | .ok xs => .num (xs.foldl (· + ·) 0)
  | .error _ =>
      match collectQuats args with
      | .ok qs => .quaternion (qs.foldl Quat.add Quat.zero)
      | .error _ => .error (.Arity 0 0)

/-- `functions::mul` (`*`). -/
def mulFn (args : List Expression) : Expression :=
  match collectNums args with
  | .ok xs => .num (xs.foldl (· * ·) 1)
  | .error _ =>
      match collectQuats args with
      | .ok qs => .quaternion (qs.foldl Quat.mul Quat.one)
      | .error other => .error (.Signature "num" other.typeOf)

/-- `functions::sub` (`-`).  Note that when the tail contains any
non-number the fold collapses to the bare head (`unwrap_or_else(|| *head)`
in the source): there is no quaternion promotion here. -/
def subFn (args : List Expression) : Expression :=
  match args with
  | [] => .error (.Custom 4 "arity mismatch: expected at least 1 argument, found 0")
  | [.num n] => .num (-n)
  | [other] => .error (.Signature "num" other.typeOf)
  | .num head :: tail =>
      match collectNumsOpt tail with
      | some nums => .num (nums.foldl (· - ·) head)
      | none => .num head
  | other :: _ => .error (.Signature "num" other.typeOf)

/-- `functions::div` (`/`).  Same shape as `sub`. -/
def divFn (args : List Expression) : Expression :=
  match args with
  | [] => .error (.Custom 4 "arity mismatch: expected at least 1 argument, found 0")
  | [.num n] => .num (1 / n)
  | [other] => .error (.Signature "num" other.typeOf)
  | .num head :: tail =>
      match collectNumsOpt tail with
      | some nums => .num (nums.foldl (· / ·) head)
      | none => .num head
  | other :: _ => .error (.Signature "num" other.typeOf)

/-- `functions::head`. -/
def headFn (args : List Expression) : Expression :=
  match args with
  | [.cons (h :: _)] => h
  | [.cons []] => .error (.Custom 10 "cannot get the tail of an empty list")
  | _ => .error (.Signature "any, cons" "not that")

/-- `functions::tail`. -/
def tailFn (args : List Expression) : Expression :=
  match args with
  | [.cons (_ :: t)] => .cons t
  | [.cons []] => .error (.Custom 11 "cannot get the tail of an empty list")
  | _ => .error (.Signature "any, cons" "not that")

/-- The field-accessor closure `get` generated by `define_struct` for
field index `i` (note: the single-non-struct-argument arm falls through
to `Arity(1, 1)`; the `Signature` arm is commented out in the source). -/
def structGetFn (i : Nat) (args : List Expression) : Expression :=
  match args with
  | [.struct _ data] =>
      match data.get? i with
      | some e => e
      | none => .error (.Custom 29 "struct does not contain specified field")
  | xs => .error (.Arity 1 xs.length)

/-- The type-predicate closure `check` generated by `define_struct` for
struct-type id `id`. -/
def structCheckFn (id : Nat) (args : List Expression) (ctx : Context) :
    Expression :=
  match args with
  | [.struct name _] =>
      match ctx.getStructId name with
      | some sid => .bool (sid = id)
      | none => .bool false
  | _ => .bool false

/-- Interprets an intrinsic-function tag on already-evaluated arguments.
None of the embedded intrinsics mutates the context. -/
def applyIntrinsic (f : IntrinsicFn) (args : List Expression)
    (ctx : Context) : Expression :=
  match f with
  | .addF => addFn args
  | .subF => subFn args
  | .mulF => mulFn args
  | .divF => divFn args
  | .headF => headFn args
  | .tailF => tailFn args
  | .structGet i => structGetFn i args
  | .structCheck id => structCheckFn id args ctx

/-- The parameter collection of `macros::create_lambda`: every parameter
must be a symbol. -/
def collectParamNames : List Expression → Option (List Str)
  | [] => some []
  | .symbol name :: rest => (collectParamNames rest).map (name :: ·)
  | _ :: _ => none

/-- `macros::create_lambda` — build a `Lambda`, wrapping multi-expression
bodies in `begin` and snapshotting the captured symbols. -/
def createLambda (params : List Expression) (body : List Expression)
    (ctx : Context) : Expression :=
  match collectParamNames params with
  | none => .error (.Syntax 17 "(lambda [args...] body)")
  | some names =>
      let bodyE := match body with
        | [b] => b
        | _ => wrapBegin body
      let cap := extractSymbols bodyE ctx
      let capture := if cap.isEmpty then none else some cap
      .callable (.Lambda names bodyE capture)

/-- `macros::lambda` — the `(lambda [params...] body...)` special form.
It never evaluates anything, so it is pure in the context. -/
def lambdaForm (list : List Expression) (ctx : Context) : Expression :=
  match optTail list >>= List.head?, optTail list >>= optTail with
  | some params, some body =>
      match params with
      | .cons l => createLambda l body ctx
      | _ => .error (.Syntax 17 "(lambda [args...] body)")
  | _, _ => .error (.Syntax 17 "(lambda [args...] body)")

/-- The member-name collection of `define_struct`: every member must be a
symbol; otherwise the first offender's type name is reported. -/
def collectMemberNames : List Expression → Except Str (List Str)
  | [] => .ok []
  | .symbol m :: rest => (collectMemberNames rest).map (m :: ·)
  | other :: _ => .error other.typeOf

/-- The result of one evaluation step.  `.ok` carries the returned
expression (which may itself be an `error` value) and the mutated
context; `.panic` models a Rust panic; `.timeout` models fuel
exhaustion (an embedding artifact, see the header). -/
inductive Outcome where
  | ok (value : Expression) (ctx : Context)
  | panic
  | timeout

/-- The result of the argument-evaluation loops of `call`
(`Result<Vec<Expression>, Exception>` with the context threaded
through). -/
inductive ArgsOutcome where
  | ok (args : List Expression) (ctx : Context)
  | err (e : Exception) (ctx : Context)
  | panic
  | timeout

/-- The result of the binding loop of `let`
(`Result<(), Exception>` with the context threaded through). -/
inductive BindOutcome where
  | ok (ctx : Context)
  | err (e : Exception) (ctx : Context)
  | panic
  | timeout

/-- The accessor-installation loop of `define_struct`: for each member
(at index `i`) insert `<name>-<member>` bound to the generated getter. -/
def insertAccessors (ctx : Context) (name : Str) :
    List Str → Nat → Context
  | [], _ => ctx
  | member :: rest, i =>
      insertAccessors
        (ctx.insert (name ++ "-" ++ member)
          (.callable (.Intrinsic (.structGet i))))
        name rest (i + 1)

/-- `macros::define_struct` — registers the struct-type id and installs
the accessor, predicate and constructor functions.  The `[] => .panic`
arm models the debug-build underflow of `list.len() - 1` on an empty call
list, which cannot arise from `eval`. -/
def defineStructForm (list : List Expression) (ctx : Context) : Outcome :=
  match list with
  | [] => .panic
  | _ :: tl =>
      match tl.length with
      | 2 =>
          match list.get? 1, list.get? 2 with
          | some nameE, some membersE =>
              match nameE with
              | .symbol s =>
                  match ctx.defineStructId s with
                  | none => .ok (.error (.Custom 31 "could not define struct")) ctx
                  | some (id, ctx1) =>
                      match membersE with
                      | .cons memberList =>
                          match collectMemberNames memberList with
                          | .error offender =>
                              .ok (.error (.Signature "symbol" offender)) ctx1
                          | .ok memberNames =>
                              let ctx2 := insertAccessors ctx1 s memberNames 0
                              let ctx3 := ctx2.insert ("is-" ++ s ++ "?")
                                (.callable (.Intrinsic (.structCheck id)))
                              let ctx4 := ctx3.insert ("make-" ++ s)
                                (.callable (.Macro (.structMake memberNames.length)))
                              .ok defaultExpr ctx4
                      | _ =>
                          -- the source reports `name.type_of()` here, the
                          -- symbol's type, not the non-cons member list's
                          .ok (.error (.Signature "cons" nameE.typeOf)) ctx1
              | _ => .ok (.error (.Signature "symbol" nameE.typeOf)) ctx
          | _, _ => .panic
      | n => .ok (.error (.Arity 2 n)) ctx

mutual

/-- `Expression::eval` — the heart of the interpreter.  Atoms evaluate to
themselves, symbols are looked up, a non-empty list evaluates its head
and dispatches through `call` on the *original* list; the empty list is
reported as having no function to call. -/
def eval : Nat → Expression → Context → Outcome
  | 0, _, _ => .timeout
  | _ + 1, .symbol ident, ctx =>
      match ctx.get ident with
      | some v => .ok v ctx
      | none => .ok (.error (.Undefined ident)) ctx
  | fuel + 1, .cons list, ctx =>
      match list with
      | [] =>
          .ok (.error (.Custom 3
            (consListDebug [] ++ " has no function to call"))) ctx
      | h :: t =>
          match eval fuel h ctx with
          | .ok fv ctx2 => call fuel fv (h :: t) ctx2
          | .panic => .panic
          | .timeout => .timeout
  | _ + 1, e, ctx => .ok e ctx

/-- `Expression::call` — dispatch on the (already evaluated) head over
the original, unevaluated call list.  The `[]` arms of the `Quote` and
`Quasiquote` cases model the debug-build underflow of `list.len() - 1`;
they cannot arise from `eval`, which always passes a non-empty list. -/
def call : Nat → Expression → List Expression → Context → Outcome
  | 0, _, _, _ => .timeout
  | fuel + 1, self, list, ctx =>
      match self with
      | .error e => .ok (.error e) ctx
      | .callable c =>
          match c with
          | .Quote =>
              match list with
              | [] => .panic
              | [_, x] => .ok x ctx
              | _ => .ok (.error (.Arity 1 (list.length - 1))) ctx
          | .Quasiquote =>
              match list with
              | [] => .panic
              | [_, x] => evalQuasiquote fuel x ctx
              | _ => .ok (.error (.Arity 1 (list.length - 1))) ctx
          | .Unquote =>
              .ok (.error (.Syntax 33
                "unquote expression must be contained in a quasiquote")) ctx
          | .Macro mf => applyMacro fuel mf list ctx
          | .Intrinsic fi =>
              match evalArgs fuel list.tail ctx with
              | .ok args ctx2 => .ok (applyIntrinsic fi args ctx2) ctx2
              | .err e ctx2 => .ok (.error e) ctx2
              | .panic => .panic
              | .timeout => .timeout
          | .Lambda params body capture =>
              match evalArgs fuel list.tail ctx with
              | .ok args ctx2 => evalLambda fuel params body args capture ctx2
              | .err e ctx2 => .ok (.error e) ctx2
              | .panic => .panic
              | .timeout => .timeout
      | other =>
          .ok (.error (.Custom 3
            ("not a callable value: `" ++ other.display ++ "`"))) ctx

/-- The argument-evaluation loop shared by the `Intrinsic` and `Lambda`
arms of `call` (and by the constructor closure of `define_struct`):
evaluate left to right, stopping at the first `error` result. -/
def evalArgs : Nat → List Expression → Context → ArgsOutcome
  | 0, _, _ => .timeout
  | _ + 1, [], ctx => .ok [] ctx
  | fuel + 1, e :: rest, ctx =>
      match eval fuel e ctx with
      | .ok (.error ex) ctx2 => .err ex ctx2
      | .ok v ctx2 =>
          match evalArgs fuel rest ctx2 with
          | .ok vs ctx3 => .ok (v :: vs) ctx3
          | o => o
      | .panic => .panic
      | .timeout => .timeout

/-- `Expression::eval_quasiquote` — a two-element list headed by
`Unquote` evaluates its second element; other lists are rebuilt with
quasiquote applied to the children; atoms pass through. -/
def evalQuasiquote : Nat → Expression → Context → Outcome
  | 0, _, _ => .timeout
  | fuel + 1, .cons [.callable .Unquote, x], ctx => eval fuel x ctx
  | fuel + 1, .cons list, ctx =>
      match quasiList fuel list ctx with
      | .ok vs ctx2 => .ok (.cons vs) ctx2
      | .err e ctx2 => .ok (.error e) ctx2
      | .panic => .panic
      | .timeout => .timeout
  | _ + 1, other, ctx => .ok other ctx

/-- The child map of `eval_quasiquote` over a `Cons` list (a plain
`collect`, so `error` values are kept in the rebuilt list, never
short-circuited). -/
def quasiList : Nat → List Expression → Context → ArgsOutcome
  | 0, _, _ => .timeout
  | _ + 1, [], ctx => .ok [] ctx
  | fuel + 1, e :: rest, ctx =>
      match evalQuasiquote fuel e ctx with
      | .ok v ctx2 =>
          match quasiList fuel rest ctx2 with
          | .ok vs ctx3 => .ok (v :: vs) ctx3
          | o => o
      | .panic => .panic
      | .timeout => .timeout

/-- `expression::eval_lambda` — check arity exactly, push a scope, insert
the capture then the parameter bindings, evaluate the body, pop the
scope.  On arity mismatch nothing is pushed or bound. -/
def evalLambda : Nat → List Str → Expression → List Expression →
    Option Capture → Context → Outcome
  | 0, _, _, _, _, _ => .timeout
  | fuel + 1, params, body, args, capture, ctx =>
      if params.length = args.length then
        let ctx1 := ctx.ascendScope
        let ctx2 := match capture with
          | some cap => cap.foldl (fun c kv => c.insert kv.1 kv.2) ctx1
          | none => ctx1
        let ctx3 := (params.zip args).foldl
          (fun c pa => c.insert pa.1 pa.2) ctx2
        match eval fuel body ctx3 with
        | .ok res ctx4 => .ok res ctx4.descendScope
        | .panic => .panic
        | .timeout => .timeout
      else .ok (.error (.Arity params.length args.length)) ctx

/-- Interprets a special-form tag on the full unevaluated call list. -/
def applyMacro : Nat → MacroFn → List Expression → Context → Outcome
  | 0, _, _, _ => .timeout
  | fuel + 1, mf, list, ctx =>
      match mf with
      | .defineF => defineForm fuel list ctx
      | .lambdaF => .ok (lambdaForm list ctx) ctx
      | .ifF => ifForm fuel list ctx
      | .condF => condForm fuel list ctx
      | .letF => letForm fuel list ctx
      | .beginF => beginForm fuel list ctx
      | .defineStructF => defineStructForm list ctx
      | .structMake m => structMakeForm fuel m list ctx

/-- `macros::define` — both the value-binding and the function-binding
shape.  The `[] => .panic` arm models the debug-build underflow of
`list.len() - 1`, unreachable from `eval`. -/
def defineForm : Nat → List Expression → Context → Outcome
  | 0, _, _ => .timeout
  | fuel + 1, list, ctx =>
      match list with
      | [] => .panic
      | _ :: tl =>
          match tl.head? with
          | none => .ok (.error (.Arity 2 (list.length - 1))) ctx
          | some h =>
              match h with
              | .symbol ident =>
                  match list with
                  | [_, _, v] =>
                      if validIdentifier ident then
                        match eval fuel v ctx with
                        | .ok (.error ex) ctx2 => .ok (.error ex) ctx2
                        | .ok value ctx2 =>
                            .ok defaultExpr (ctx2.insert ident value)
                        | .panic => .panic
                        | .timeout => .timeout
                      else
                        .ok (.error (.Custom 28
                          ("reserved identifier: " ++ ident))) ctx
                  | _ => .ok (.error (.Arity 3 list.length)) ctx
              | .cons func =>
                  match func.head? with
                  | none => .ok (.error (.Arity 2 0)) ctx
                  | some identE =>
                      match identE with
                      | .symbol s =>
                          if validIdentifier s then
                            match collectParamNames func.tail with
                            | none =>
                                .ok (.error (.Syntax 27
                                  "function parameters must be symbols")) ctx
                            | some _ =>
                                match optTail list >>= optTail with
                                | some body =>
                                    let lam := createLambda func.tail body ctx
                                    .ok defaultExpr (ctx.insert s lam)
                                | none => .ok defaultExpr ctx
                          else
                            .ok (.error (.Custom 28
                              ("reserved identifier: " ++ s))) ctx
                      | _ =>
                          .ok (.error (.Signature "symbol" identE.typeOf)) ctx
              | _ =>
                  .ok (.error (.Syntax 26
                    "define must bind either a function or a symbol")) ctx

/-- `macros::if_expr` — the condition (second list element, when
present) is evaluated first; the branches are taken unevaluated; the
final `_` arm yields `Arity(3, list.len())` over the *full* list
length. -/
def ifForm : Nat → List Expression → Context → Outcome
  | 0, _, _ => .timeout
  | fuel + 1, list, ctx =>
      match list.get? 1 with
      | none => .ok (.error (.Arity 3 list.length)) ctx
      | some c =>
          match eval fuel c ctx with
          | .ok cv ctx2 =>
              match cv, list.get? 2, list.get? 3 with
              | .error ex, _, _ => .ok (.error ex) ctx2
              | .bool b, some t, some e =>
                  if b then eval fuel t ctx2 else eval fuel e ctx2
              | a, some t, some e =>
                  .ok (.error (.Signature "bool, any, any"
                    (a.typeOf ++ ", " ++ t.typeOf ++ ", " ++ e.typeOf))) ctx2
              | _, _, _ => .ok (.error (.Arity 3 list.length)) ctx2
          | .panic => .panic
          | .timeout => .timeout

/-- `macros::cond` — push a scope, bind `else` to `true`, then walk the
clauses. -/
def condForm : Nat → List Expression → Context → Outcome
  | 0, _, _ => .timeout
  | fuel + 1, list, ctx =>
      condLoop fuel list.tail ((ctx.ascendScope).insert "else" (.bool true))

/-- The clause loop of `cond`.  Mirrors the source exactly: on a clause
whose predicate evaluates to an `error` value the loop returns *without*
popping the scope (`return ex.clone()` precedes any `descend_scope`); a
matching clause pops the scope first and evaluates its value expression
outside it; every other exit pops the scope. -/
def condLoop : Nat → List Expression → Context → Outcome
  | 0, _, _ => .timeout
  | _ + 1, [], ctx => .ok defaultExpr ctx.descendScope
  | fuel + 1, branch :: rest, ctx =>
      match branch with
      | .cons [c, v] =>
          match eval fuel c ctx with
          | .ok (.error ex) ctx2 => .ok (.error ex) ctx2
          | .ok (.bool false) ctx2 => condLoop fuel rest ctx2
          | .ok (.bool true) ctx2 => eval fuel v ctx2.descendScope
          | .ok _ ctx2 =>
              .ok (.error (.Syntax 18 "condition must be a boolean value"))
                ctx2.descendScope
          | .panic => .panic
          | .timeout => .timeout
      | _ =>
          .ok (.error (.Syntax 20 "condition case must be a list"))
            ctx.descendScope

/-- `macros::let_expr` — push a scope, run the binding loop, evaluate the
body (wrapped in `begin` when multi-expression), pop the scope whatever
happened. -/
def letForm : Nat → List Expression → Context → Outcome
  | 0, _, _ => .timeout
  | fuel + 1, list, ctx =>
      let ctx1 := ctx.ascendScope
      match optTail list >>= List.head? with
      | none => .ok (.error (.Arity 2 0)) ctx1.descendScope
      | some bindingsE =>
          match bindingsE with
          | .cons bl =>
              match letBindings fuel bl ctx1 with
              | .err ex ctx2 => .ok (.error ex) ctx2.descendScope
              | .ok ctx2 =>
                  match optTail list >>= optTail with
                  | none =>
                      .ok (.error (.Syntax 24 "let body not found"))
                        ctx2.descendScope
                  | some bodyList =>
                      let bodyE := match bodyList with
                        | [b] => b
                        | _ => wrapBegin bodyList
                      match eval fuel bodyE ctx2 with
                      | .ok v ctx3 => .ok v ctx3.descendScope
                      | .panic => .panic
                      | .timeout => .timeout
              | .panic => .panic
              | .timeout => .timeout
          | _ =>
              .ok (.error (.Syntax 21 "binding list must be a list of bindings"))
                ctx1.descendScope

/-- The binding loop of `let`: each well-formed binding evaluates its
value in the current (partially extended) scope; a value that evaluates
to an `error` is skipped — not inserted — and the loop continues. -/
def letBindings : Nat → List Expression → Context → BindOutcome
  | 0, _, _ => .timeout
  | _ + 1, [], ctx => .ok ctx
  | fuel + 1, binding :: rest, ctx =>
      match binding with
      | .cons [identE, v] =>
          match identE with
          | .symbol s =>
              match eval fuel v ctx with
              | .ok value ctx2 =>
                  if value.isError then letBindings fuel rest ctx2
                  else letBindings fuel rest (ctx2.insert s value)
              | .panic => .panic
              | .timeout => .timeout
          | other =>
              .err (.Syntax 22
                ("identifier in binding must be a symbol, found " ++
                  other.display)) ctx
      | .cons l => .err (.Arity 2 l.length) ctx
      | other =>
          .err (.Syntax 23
            ("binding must be a list containing a symbol and a value, found " ++
              other.display)) ctx

/-- `macros::begin` — evaluate the tail in order, short-circuiting on the
first `error` result and returning the last value (`default` when the
body is empty). -/
def beginForm : Nat → List Expression → Context → Outcome
  | 0, _, _ => .timeout
  | fuel + 1, list, ctx => beginLoop fuel list.tail defaultExpr ctx

/-- The expression loop of `begin`, carrying the last result. -/
def beginLoop : Nat → List Expression → Expression → Context → Outcome
  | 0, _, _, _ => .timeout
  | _ + 1, [], last, ctx => .ok last ctx
  | fuel + 1, e :: rest, _, ctx =>
      match eval fuel e ctx with
      | .ok r ctx2 =>
          if r.isError then .ok r ctx2 else beginLoop fuel rest r ctx2
      | .panic => .panic
      | .timeout => .timeout

/-- The constructor closure `make` generated by `define_struct` for a
struct of `memberCount` fields.  Arguments are evaluated (with the usual
short-circuit) *before* the arity check; the struct's name is recovered
from the call-site head symbol by stripping the five-byte prefix
`make-`: a non-symbol head hits `unreachable!()` and a symbol shorter
than five bytes makes `split_at` panic — both modelled as `.panic`. -/
def structMakeForm : Nat → Nat → List Expression → Context → Outcome
  | 0, _, _, _ => .timeout
  | fuel + 1, memberCount, args, ctx =>
      match args with
      | [] => .panic
      | hd :: tl =>
          match evalArgs fuel tl ctx with
          | .err ex ctx2 => .ok (.error ex) ctx2
          | .ok memberData ctx2 =>
              if tl.length = memberCount then
                match hd with
                | .symbol ident =>
                    if 5 ≤ ident.length then
                      .ok (.struct (ident.drop 5) memberData) ctx2
                    else .panic
                | _ => .panic
              else .ok (.error (.Arity memberCount tl.length)) ctx2
          | .panic => .panic
          | .timeout => .timeout

end

/-- The fragment of `intrinsics::init_context` covering the embedded
subset: the special forms of `load_macros` and the arithmetic and list
intrinsics of `load_functions` that the development exercises. -/
def initCtx : Context :=
  ⟨[⟨[("define", .callable (.Macro .defineF)),
      ("lambda", .callable (.Macro .lambdaF)),
      ("if", .callable (.Macro .ifF)),
      ("cond", .callable (.Macro .condF)),
      ("let", .callable (.Macro .letF)),
      ("begin", .callable (.Macro .beginF)),
      ("define-struct", .callable (.Macro .defineStructF)),
      ("+", .callable (.Intrinsic .addF)),
      ("-", .callable (.Intrinsic .subF)),
      ("*", .callable (.Intrinsic .mulF)),
      ("/", .callable (.Intrinsic .divF)),
      ("head", .callable (.Intrinsic .headF)),
      ("tail", .callable (.Intrinsic .tailF))], []⟩], 0⟩

/-- Statement vocabulary: is the expression a plain number? -/
def Expression.isNum : Expression → Bool
  | .num _ => true
  | _ => false

/-- Statement vocabulary: is the expression a quaternion? -/
def Expression.isQuat : Expression → Bool
  | .quaternion _ => true
  | _ => false

/-- The rlisp program `(define-struct point [x y])`. -/
def defineStructProg : Expression :=
  .cons [.symbol "define-struct", .symbol "point",
    .cons [.symbol "x", .symbol "y"]]

/-- The rlisp program `(define mk make-point)` — aliasing the generated
constructor under a short name. -/
def defineMkProg : Expression :=
  .cons [.symbol "define", .symbol "mk", .symbol "make-point"]

/-- The rlisp program `(mk 1 2)` — calling the constructor through the
alias, so the call-site head symbol is shorter than the `make-` prefix
the constructor strips. -/
def callMkProg : Expression := .cons [.symbol "mk", .num 1, .num 2]

/-- The rlisp program `(cond [nope 1])` with `nope` unbound, so the first
predicate evaluates to an undefined-symbol error. -/
def condLeakProg : Expression :=
  .cons [.symbol "cond", .cons [.symbol "nope", .num 1]]

/-- If the argument loop stops at an error, everything after the erroring
argument is irrelevant: extending the list beyond it neither changes the
result nor gets evaluated. -/
theorem evalArgs_extend (bad : Expression) (post : List Expression)
    (ex : Exception) (ctx2 : Context) :
    ∀ (pre : List Expression) (f : Nat) (ctx : Context),
      evalArgs f (pre ++ [bad]) ctx = .err ex ctx2 →
      evalArgs f (pre ++ bad :: post) ctx = .err ex ctx2 := by
  intro pre
  induction pre with
  | nil =>
      intro f ctx h
      match f with
      | 0 => exact absurd h (by simp [evalArgs])
      | f + 1 =>
          simp only [List.nil_append, evalArgs] at h ⊢
          cases heval : eval f bad ctx with
          | ok v ctxv =>
              rw [heval] at h
              cases v <;> try exact h
              all_goals
                dsimp only at h
              all_goals
                (match f with
                 | 0 => exact absurd h (by simp [evalArgs])
                 | f + 1 => exact absurd h (by simp [evalArgs]))
          | panic => rw [heval] at h; exact absurd h (by simp)
          | timeout => rw [heval] at h; exact absurd h (by simp)
  | cons p pre ih =>
      intro f ctx h
      match f with
      | 0 => exact absurd h (by simp [evalArgs])
      | f + 1 =>
          simp only [List.cons_append, evalArgs] at h ⊢
          cases heval : eval f p ctx with
          | ok v ctxv =>
              rw [heval] at h
              cases v <;> try exact h
              all_goals dsimp only at h ⊢
              all_goals simp only [List.append_eq] at h ⊢
              all_goals (
                cases hrec : evalArgs f (pre ++ [bad]) ctxv with
                | ok vs c3 => rw [hrec] at h; exact absurd h (by simp)
                | err e c =>
                    rw [hrec] at h
                    cases h
                    rw [ih f ctxv hrec]
                | panic => rw [hrec] at h; exact absurd h (by simp)
                | timeout => rw [hrec] at h; exact absurd h (by simp))
          | panic => rw [heval] at h; exact absurd h (by simp)
          | timeout => rw [heval] at h; exact absurd h (by simp)

/-- A list containing a non-number makes the plain-number collection of
`add`/`mul` fail. -/
theorem collectNums_err_of_mem (args : List Expression) (a : Expression)
    (ha : a ∈ args) (hn : a.isNum = false) :
    ∃ off, collectNums args = .error off := by
  induction args with
  | nil => cases ha
  | cons x rest ih =>
      cases x with
      | num n =>
          rcases List.mem_cons.mp ha with rfl | ha2
          · simp [Expression.isNum] at hn
          · rcases ih ha2 with ⟨off, hoff⟩
            exact ⟨off, by simp [collectNums, hoff, Except.map]⟩
      | _ => exact ⟨_, rfl⟩

/-- When every element is a number or a quaternion, the quaternion retry
collection of `add`/`mul` succeeds. -/
theorem collectQuats_ok_of_all (args : List Expression)
    (h : ∀ a ∈ args, a.isNum = true ∨ a.isQuat = true) :
    ∃ qs, collectQuats args = .ok qs := by
  induction args with
  | nil => exact ⟨[], rfl⟩
  | cons x rest ih =>
      have hx := h x (List.mem_cons_self x rest)
      obtain ⟨qs, hqs⟩ := ih (fun a ha => h a (List.mem_cons_of_mem x ha))
      cases x
      case num n =>
        exact ⟨Quat.ofNum n :: qs, by simp [collectQuats, hqs, Except.map]⟩
      case quaternion q =>
        exact ⟨q :: qs, by simp [collectQuats, hqs, Except.map]⟩
      all_goals simp [Expression.isNum, Expression.isQuat] at hx

/-- A list containing something that is neither a number nor a quaternion
makes the quaternion retry collection fail as well. -/
theorem collectQuats_err_of_mem (args : List Expression) (a : Expression)
    (ha : a ∈ args) (hn : a.isNum = false) (hq : a.isQuat = false) :
    ∃ off, collectQuats args = .error off := by
  induction args with
  | nil => cases ha
  | cons x rest ih =>
      cases x with
      | num n =>
          rcases List.mem_cons.mp ha with rfl | ha2
          · simp [Expression.isNum] at hn
          · rcases ih ha2 with ⟨off, hoff⟩
            exact ⟨off, by simp [collectQuats, hoff, Except.map]⟩
      | quaternion q =>
          rcases List.mem_cons.mp ha with rfl | ha2
          · simp [Expression.isQuat] at hq
          · rcases ih ha2 with ⟨off, hoff⟩
            exact ⟨off, by simp [collectQuats, hoff, Except.map]⟩
      | _ => exact ⟨_, rfl⟩

/-- A non-number in the tail operands of `sub`/`div` collapses the
`Option` collection to `none`. -/
theorem collectNumsOpt_none_of_mem (args : List Expression) (a : Expression)
    (ha : a ∈ args) (hn : a.isNum = false) :
    collectNumsOpt args = none := by
  induction args with
  | nil => cases ha
  | cons x rest ih =>
      cases x with
      | num n =>
          rcases List.mem_cons.mp ha with rfl | ha2
          · simp [Expression.isNum] at hn
          · simp [collectNumsOpt, ih ha2]
      | _ => rfl

/-- C1.  The claim states that `eval` is total — never panics, in
particular for every call of a `define-struct` constructor whatever
expression appears in head position.  The code violates this: after
`(define-struct point [x y])` and `(define mk make-point)`, evaluating
`(mk 1 2)` reaches the generated constructor with the call-site head
symbol `mk`, whose length is below the five bytes `split_at` strips for
the `make-` prefix, and the interpreter panics (a head expression that is
not a symbol likewise hits `unreachable!()`).  This theorem runs the
three-step program and shows the final evaluation is a panic, not an
`error` value. -/
theorem claim1_struct_constructor_panics :
    ∃ v1 c1 v2 c2,
      eval 20 defineStructProg initCtx = .ok v1 c1 ∧
      eval 20 defineMkProg c1 = .ok v2 c2 ∧
      eval 20 callMkProg c2 = .panic :=
  ⟨_, _, _, _, rfl, rfl, rfl⟩

/-- C2.  The claim states that every scope-pushing construct pops its
scope on every exit path, including error exits.  `cond` violates this:
when a predicate evaluates to an error the loop returns the error
*before* `descend_scope`, so evaluating `(cond [nope 1])` (with `nope`
unbound) leaves one extra scope on the stack. -/
theorem claim2_cond_scope_leak :
    ∃ c, eval 9 condLeakProg initCtx = .ok (.error (.Undefined "nope")) c ∧
      c.scopes.length = initCtx.scopes.length + 1 :=
  ⟨_, rfl, rfl⟩

/-- C3 counterexample.  The claim states the empty `Cons` list evaluates
to itself; in the code `eval` finds no head to call and returns a
`Custom` error with code 3 instead. -/
theorem claim3_counterexample :
    eval 1 (.cons []) initCtx ≠ .ok (.cons []) initCtx ∧
    eval 1 (.cons []) initCtx =
      .ok (.error (.Custom 3
        (consListDebug [] ++ " has no function to call"))) initCtx := by
  constructor
  · intro h
    rw [show eval 1 (.cons []) initCtx =
        .ok (.error (.Custom 3
          (consListDebug [] ++ " has no function to call"))) initCtx
      from rfl] at h
    simp at h
  · rfl

/-- C3 amended.  Evaluating an empty `Cons` list returns a `Custom` error
with code 3 ("... has no function to call") and leaves the context
untouched; the empty list is *not* self-evaluating. -/
theorem claim3_empty_list_error (f : Nat) (ctx : Context) :
    eval (f + 1) (.cons []) ctx =
      .ok (.error (.Custom 3
        (consListDebug [] ++ " has no function to call"))) ctx := rfl

/-- C4.  Lambda capture is a by-value snapshot taken at creation time:
for the program `(define x 1) (define f (lambda () x)) (define x 2)`, the
call `(f)` returns `1`, the value of `x` captured when the lambda was
created; the later redefinition is invisible inside the call. -/
theorem claim4_capture_snapshot :
    ∃ c1 c2 c3 c4,
      eval 20 (.cons [.symbol "define", .symbol "x", .num 1]) initCtx =
        .ok defaultExpr c1 ∧
      eval 20 (.cons [.symbol "define", .symbol "f",
        .cons [.symbol "lambda", .cons [], .symbol "x"]]) c1 =
        .ok defaultExpr c2 ∧
      eval 20 (.cons [.symbol "define", .symbol "x", .num 2]) c2 =
        .ok defaultExpr c3 ∧
      eval 20 (.cons [.symbol "f"]) c3 = .ok (.num 1) c4 :=
  ⟨_, _, _, _, rfl, rfl, rfl, rfl⟩

/-- C5.  Calling a lambda of `N` parameters on `M ≠ N` evaluated
arguments yields exactly `Error(Arity(N, M))` and returns the context
unchanged: no scope is pushed and neither parameter nor capture bindings
are inserted. -/
theorem claim5_lambda_arity (f : Nat) (params : List Str)
    (body : Expression) (args : List Expression) (capture : Option Capture)
    (ctx : Context) (h : params.length ≠ args.length) :
    evalLambda (f + 1) params body args capture ctx =
      .ok (.error (.Arity params.length args.length)) ctx := by
  simp [evalLambda, h]

/-- C5 witness. -/
theorem claim5_lambda_arity_witness :
    (["x"] : List Str).length ≠ ([] : List Expression).length ∧
    evalLambda 1 ["x"] (.num 0) [] none initCtx =
      .ok (.error (.Arity 1 0)) initCtx :=
  ⟨by decide, claim5_lambda_arity 0 ["x"] (.num 0) [] none initCtx (by decide)⟩

/-- C6.  Arguments of an `Intrinsic` or `Lambda` call are evaluated left
to right; if the argument run up to some erroring argument produces an
error, that error is the result of the whole call, unchanged whatever
arguments follow the erroring one (they are never evaluated — the result
and final context do not depend on `post`) and whatever the native
function or lambda is (it is never invoked — the result does not depend
on `fi`, `ps`, `bodyE`, `cap`). -/
theorem claim6_argument_short_circuit (f : Nat) (hd bad : Expression)
    (pre post : List Expression) (ctx ctx2 : Context) (ex : Exception)
    (h : evalArgs f (pre ++ [bad]) ctx = .err ex ctx2) :
    (∀ fi : IntrinsicFn,
      call (f + 1) (.callable (.Intrinsic fi)) (hd :: (pre ++ bad :: post)) ctx
        = .ok (.error ex) ctx2) ∧
    (∀ (ps : List Str) (bodyE : Expression) (cap : Option Capture),
      call (f + 1) (.callable (.Lambda ps bodyE cap))
          (hd :: (pre ++ bad :: post)) ctx
        = .ok (.error ex) ctx2) := by
  have hext := evalArgs_extend bad post ex ctx2 pre f ctx h
  constructor
  · intro fi
    simp only [call, List.tail_cons, hext]
  · intro ps bodyE cap
    simp only [call, List.tail_cons, hext]

/-- C6 witness: `(+ 1 nope 5)` stops at the unbound symbol `nope`; the
`5` is never evaluated and the addition (or a lambda) never runs. -/
theorem claim6_argument_short_circuit_witness :
    evalArgs 3 ([.num 1] ++ [.symbol "nope"]) initCtx =
      .err (.Undefined "nope") initCtx ∧
    call 4 (.callable (.Intrinsic .addF))
        (.symbol "+" :: ([.num 1] ++ .symbol "nope" :: [.num 5])) initCtx =
      .ok (.error (.Undefined "nope")) initCtx ∧
    call 4 (.callable (.Lambda ["a", "b", "c"] (.num 0) none))
        (.symbol "f" :: ([.num 1] ++ .symbol "nope" :: [.num 5])) initCtx =
      .ok (.error (.Undefined "nope")) initCtx :=
  ⟨rfl,
    (claim6_argument_short_circuit 3 (.symbol "+") (.symbol "nope")
      [.num 1] [.num 5] initCtx initCtx (.Undefined "nope") rfl).1 .addF,
    (claim6_argument_short_circuit 3 (.symbol "f") (.symbol "nope")
      [.num 1] [.num 5] initCtx initCtx (.Undefined "nope") rfl).2
      ["a", "b", "c"] (.num 0) none⟩

/-- C7 counterexample.  The claim states that *every* arithmetic
built-in promotes to quaternions when an operand is a quaternion and
never silently computes a numeric result from a non-numeric operand.
`sub` and `div` do neither: `(- 1 1k)` and `(/ 1 1k)` return the plain
number `1`, silently dropping the quaternion operand. -/
theorem claim7_counterexample :
    subFn [.num 1, .quaternion ⟨0, 0, 0, 1⟩] = .num 1 ∧
    divFn [.num 1, .quaternion ⟨0, 0, 0, 1⟩] = .num 1 :=
  ⟨rfl, rfl⟩

/-- C7 amended.  Quaternion promotion holds for `+` and `*` exactly as
claimed: with at least one quaternion operand and every operand a number
or quaternion the result is a quaternion, and with an operand that is
neither, `+` returns `Arity(0, 0)` and `*` a `Signature` error.  For `-`
and `/` there is no promotion: a quaternion (or any non-number) first
operand yields a `Signature` error, and any non-number among the later
operands makes the operation return the first operand unchanged as a
plain number. -/
theorem claim7_promotion_amended :
    (∀ args : List Expression,
      (∃ a ∈ args, a.isQuat = true) →
      (∀ a ∈ args, a.isNum = true ∨ a.isQuat = true) →
      (∃ q, addFn args = .quaternion q) ∧ (∃ q, mulFn args = .quaternion q)) ∧
    (∀ args : List Expression,
      (∃ a ∈ args, a.isNum = false ∧ a.isQuat = false) →
      addFn args = .error (.Arity 0 0) ∧
      (∃ s, mulFn args = .error (.Signature "num" s))) ∧
    (∀ (n : ℚ) (tl : List Expression),
      (∃ a ∈ tl, a.isNum = false) →
      subFn (.num n :: tl) = .num n ∧ divFn (.num n :: tl) = .num n) ∧
    (∀ (q : Quat) (rest : List Expression),
      subFn (.quaternion q :: rest) = .error (.Signature "num" "quaternion") ∧
      divFn (.quaternion q :: rest) = .error (.Signature "num" "quaternion")) := by
  refine ⟨?_, ?_, ?_, ?_⟩
  · intro args hq hall
    obtain ⟨a, ha, haq⟩ := hq
    have han : a.isNum = false := by
      cases a <;> simp [Expression.isQuat] at haq <;> simp [Expression.isNum]
    obtain ⟨off, hoff⟩ := collectNums_err_of_mem args a ha han
    obtain ⟨qs, hqs⟩ := collectQuats_ok_of_all args hall
    exact ⟨⟨qs.foldl Quat.add Quat.zero, by simp [addFn, hoff, hqs]⟩,
      ⟨qs.foldl Quat.mul Quat.one, by simp [mulFn, hoff, hqs]⟩⟩
  · intro args hbad
    obtain ⟨a, ha, han, haq⟩ := hbad
    obtain ⟨off, hoff⟩ := collectNums_err_of_mem args a ha han
    obtain ⟨off2, hoff2⟩ := collectQuats_err_of_mem args a ha han haq
    exact ⟨by simp [addFn, hoff, hoff2],
      ⟨off2.typeOf, by simp [mulFn, hoff, hoff2]⟩⟩
  · intro n tl hbad
    obtain ⟨a, ha, han⟩ := hbad
    have hnone := collectNumsOpt_none_of_mem tl a ha han
    cases tl with
    | nil => cases ha
    | cons t ts => exact ⟨by simp [subFn, hnone], by simp [divFn, hnone]⟩
  · intro q rest
    cases rest with
    | nil => exact ⟨rfl, rfl⟩
    | cons r rs => exact ⟨rfl, rfl⟩

/-- C7 amended, witness. -/
theorem claim7_promotion_amended_witness :
    ((∃ a ∈ ([.num 1, .quaternion ⟨0, 0, 0, 1⟩] : List Expression),
        a.isQuat = true) ∧
      (∀ a ∈ ([.num 1, .quaternion ⟨0, 0, 0, 1⟩] : List Expression),
        a.isNum = true ∨ a.isQuat = true) ∧
      (∃ q, addFn [.num 1, .quaternion ⟨0, 0, 0, 1⟩] = .quaternion q)) ∧
    ((∃ a ∈ ([.str "s"] : List Expression),
        a.isNum = false ∧ a.isQuat = false) ∧
      addFn [.str "s"] = .error (.Arity 0 0)) ∧
    ((∃ a ∈ ([.quaternion ⟨0, 0, 0, 1⟩] : List Expression),
        a.isNum = false) ∧
      subFn [.num 1, .quaternion ⟨0, 0, 0, 1⟩] = .num 1) ∧
    subFn [.quaternion ⟨0, 0, 0, 1⟩] = .error (.Signature "num" "quaternion") := by
  have h1 : ∃ a ∈ ([.num 1, .quaternion ⟨0, 0, 0, 1⟩] : List Expression),
      a.isQuat = true := ⟨.quaternion ⟨0, 0, 0, 1⟩, by simp, rfl⟩
  have h2 : ∀ a ∈ ([.num 1, .quaternion ⟨0, 0, 0, 1⟩] : List Expression),
      a.isNum = true ∨ a.isQuat = true := by decide
  have h3 : ∃ a ∈ ([.str "s"] : List Expression),
      a.isNum = false ∧ a.isQuat = false := ⟨.str "s", by simp, rfl, rfl⟩
  have h4 : ∃ a ∈ ([.quaternion ⟨0, 0, 0, 1⟩] : List Expression),
      a.isNum = false := ⟨.quaternion ⟨0, 0, 0, 1⟩, by simp, rfl⟩
  exact ⟨⟨h1, h2, (claim7_promotion_amended.1 _ h1 h2).1⟩,
    ⟨h3, (claim7_promotion_amended.2.1 _ h3).1⟩,
    ⟨h4, (claim7_promotion_amended.2.2.1 1 [.quaternion ⟨0, 0, 0, 1⟩] h4).1⟩,
    (claim7_promotion_amended.2.2.2 ⟨0, 0, 0, 1⟩ []).1⟩

/-- C8 counterexample.  The claim states `if` takes exactly 3 arguments
and any other count `n` yields `Arity(3, n)` with no branch evaluated.
In the code `(if true 1 2 3)` — four arguments — evaluates the first
branch normally, and `(if)` — zero arguments — reports `Arity(3, 1)`,
counting the full list (head included) rather than the arguments. -/
theorem claim8_counterexample :
    eval 9 (.cons [.symbol "if", .bool true, .num 1, .num 2, .num 3]) initCtx
      = .ok (.num 1) initCtx ∧
    eval 9 (.cons [.symbol "if"]) initCtx
      = .ok (.error (.Arity 3 1)) initCtx :=
  ⟨rfl, rfl⟩

/-- C8 amended.  `if` does not enforce an arity of exactly 3: (i) with
three or more arguments any extras are silently ignored and the chosen
branch is evaluated; (ii)–(iv) with fewer than three arguments the
condition, when present, is still evaluated first, and (for a non-error
condition value) the result is `Arity(3, ℓ)` where `ℓ` is the *full*
list length including the head — i.e. `Arity(3, n+1)` for `n`
arguments; (v) an error from the condition is returned as the result
whatever else is present. -/
theorem claim8_if_arity_amended :
    (∀ (f : Nat) (ifHead c t e : Expression) (rest : List Expression)
        (ctx ctx2 : Context) (b : Bool),
      eval f c ctx = .ok (.bool b) ctx2 →
      ifForm (f + 1) (ifHead :: c :: t :: e :: rest) ctx =
        (if b then eval f t ctx2 else eval f e ctx2)) ∧
    (∀ (f : Nat) (ifHead : Expression) (ctx : Context),
      ifForm (f + 1) [ifHead] ctx = .ok (.error (.Arity 3 1)) ctx) ∧
    (∀ (f : Nat) (ifHead c : Expression) (ctx ctx2 : Context) (v : Expression),
      eval f c ctx = .ok v ctx2 → v.isError = false →
      ifForm (f + 1) [ifHead, c] ctx = .ok (.error (.Arity 3 2)) ctx2) ∧
    (∀ (f : Nat) (ifHead c t : Expression) (ctx ctx2 : Context)
        (v : Expression),
      eval f c ctx = .ok v ctx2 → v.isError = false →
      ifForm (f + 1) [ifHead, c, t] ctx = .ok (.error (.Arity 3 3)) ctx2) ∧
    (∀ (f : Nat) (ifHead c : Expression) (rest : List Expression)
        (ctx ctx2 : Context) (ex : Exception),
      eval f c ctx = .ok (.error ex) ctx2 →
      ifForm (f + 1) (ifHead :: c :: rest) ctx = .ok (.error ex) ctx2) := by
  refine ⟨?_, ?_, ?_, ?_, ?_⟩
  · intro f ifHead c t e rest ctx ctx2 b hc
    simp only [ifForm, List.get?, hc]
  · intro f ifHead ctx
    rfl
  · intro f ifHead c ctx ctx2 v hc hv
    simp only [ifForm, List.get?, hc]
    cases v
    case error e => simp [Expression.isError] at hv
    all_goals rfl
  · intro f ifHead c t ctx ctx2 v hc hv
    simp only [ifForm, List.get?, hc]
    cases v
    case error e => simp [Expression.isError] at hv
    all_goals rfl
  · intro f ifHead c rest ctx ctx2 ex hc
    cases rest with
    | nil => simp only [ifForm, List.get?, hc]
    | cons r rs => cases rs <;> simp only [ifForm, List.get?, hc]

/-- C8 amended, witness. -/
theorem claim8_if_arity_amended_witness :
    (eval 1 (.bool true) initCtx = .ok (.bool true) initCtx ∧
      ifForm 2 [.symbol "if", .bool true, .num 1, .num 2, .num 3] initCtx =
        (if true then eval 1 (.num 1) initCtx else eval 1 (.num 2) initCtx)) ∧
    ifForm 2 [.symbol "if"] initCtx = .ok (.error (.Arity 3 1)) initCtx ∧
    (eval 1 (.num 7) initCtx = .ok (.num 7) initCtx ∧
      (Expression.num 7).isError = false ∧
      ifForm 2 [.symbol "if", .num 7] initCtx =
        .ok (.error (.Arity 3 2)) initCtx) ∧
    (ifForm 2 [.symbol "if", .num 7, .num 1] initCtx =
        .ok (.error (.Arity 3 3)) initCtx) ∧
    (eval 1 (.symbol "nope") initCtx =
        .ok (.error (.Undefined "nope")) initCtx ∧
      ifForm 2 [.symbol "if", .symbol "nope", .num 1, .num 2] initCtx =
        .ok (.error (.Undefined "nope")) initCtx) :=
  ⟨⟨rfl, claim8_if_arity_amended.1 1 (.symbol "if") (.bool true) (.num 1)
      (.num 2) [.num 3] initCtx initCtx true rfl⟩,
    claim8_if_arity_amended.2.1 1 (.symbol "if") initCtx,
    ⟨rfl, rfl, claim8_if_arity_amended.2.2.1 1 (.symbol "if") (.num 7)
      initCtx initCtx (.num 7) rfl rfl⟩,
    claim8_if_arity_amended.2.2.2.1 1 (.symbol "if") (.num 7) (.num 1)
      initCtx initCtx (.num 7) rfl rfl,
    ⟨rfl, claim8_if_arity_amended.2.2.2.2 1 (.symbol "if") (.symbol "nope")
      [.num 1, .num 2] initCtx initCtx (.Undefined "nope") rfl⟩⟩

/-- C9.  In a `let` with structurally well-formed bindings: (i) a binding
whose value evaluates to an error is skipped — nothing is inserted — and
the loop continues with the remaining bindings in the post-evaluation
context; (ii) a successful binding is inserted before the remaining
bindings are processed, so later bindings see earlier ones; (iii) after
the binding loop succeeds the body is evaluated in the resulting scope
and its value is returned with the scope popped. -/
theorem claim9_let_bindings :
    (∀ (f : Nat) (s : Str) (v : Expression) (rest : List Expression)
        (ctx ctx2 : Context) (ex : Exception),
      eval f v ctx = .ok (.error ex) ctx2 →
      letBindings (f + 1) (.cons [.symbol s, v] :: rest) ctx =
        letBindings f rest ctx2) ∧
    (∀ (f : Nat) (s : Str) (v value : Expression) (rest : List Expression)
        (ctx ctx2 : Context),
      eval f v ctx = .ok value ctx2 → value.isError = false →
      letBindings (f + 1) (.cons [.symbol s, v] :: rest) ctx =
        letBindings f rest (ctx2.insert s value)) ∧
    (∀ (f : Nat) (bl : List Expression) (bodyE : Expression)
        (ctx ctx1 : Context) (v : Expression) (ctx3 : Context)
        (letHead : Expression),
      letBindings f bl ctx.ascendScope = .ok ctx1 →
      eval f bodyE ctx1 = .ok v ctx3 →
      letForm (f + 1) [letHead, .cons bl, bodyE] ctx =
        .ok v ctx3.descendScope) := by
  refine ⟨?_, ?_, ?_⟩
  · intro f s v rest ctx ctx2 ex hv
    simp [letBindings, hv, Expression.isError]
  · intro f s v value rest ctx ctx2 hv hval
    simp [letBindings, hv, hval]
  · intro f bl bodyE ctx ctx1 v ctx3 letHead hb hbody
    simp [letForm, optTail, hb, hbody]

/-- C9 witness: in `(let ([a nope] [b 7]) b)` the `a` binding errors and
is skipped, the `b` binding is inserted, and the body still evaluates to
`7`. -/
theorem claim9_let_bindings_witness :
    (eval 1 (.symbol "nope") initCtx.ascendScope =
        .ok (.error (.Undefined "nope")) initCtx.ascendScope ∧
      letBindings 2
          [.cons [.symbol "a", .symbol "nope"], .cons [.symbol "b", .num 7]]
          initCtx.ascendScope =
        letBindings 1 [.cons [.symbol "b", .num 7]] initCtx.ascendScope) ∧
    (eval 1 (.num 7) initCtx.ascendScope =
        .ok (.num 7) initCtx.ascendScope ∧
      letBindings 2 [.cons [.symbol "b", .num 7]] initCtx.ascendScope =
        letBindings 1 [] (initCtx.ascendScope.insert "b" (.num 7))) ∧
    (letBindings 3 [.cons [.symbol "b", .num 7]] initCtx.ascendScope =
        .ok (initCtx.ascendScope.insert "b" (.num 7)) ∧
      eval 3 (.symbol "b") (initCtx.ascendScope.insert "b" (.num 7)) =
        .ok (.num 7) (initCtx.ascendScope.insert "b" (.num 7)) ∧
      letForm 4 [.symbol "let", .cons [.cons [.symbol "b", .num 7]],
          .symbol "b"] initCtx =
        .ok (.num 7)
          ((initCtx.ascendScope.insert "b" (.num 7)).descendScope)) :=
  ⟨⟨rfl, claim9_let_bindings.1 1 "a" (.symbol "nope")
      [.cons [.symbol "b", .num 7]] initCtx.ascendScope initCtx.ascendScope
      (.Undefined "nope") rfl⟩,
    ⟨rfl, claim9_let_bindings.2.1 1 "b" (.num 7) (.num 7) [] initCtx.ascendScope
      initCtx.ascendScope rfl rfl⟩,
    ⟨rfl, rfl, claim9_let_bindings.2.2 3 [.cons [.symbol "b", .num 7]]
      (.symbol "b") initCtx (initCtx.ascendScope.insert "b" (.num 7))
      (.num 7) (initCtx.ascendScope.insert "b" (.num 7)) (.symbol "let")
      rfl rfl⟩⟩

/-- C10.  Applying `head` or `tail` to a single empty-list argument
returns a `Custom` error (code 10 for `head`, 11 for `tail`), and
applying either to a single non-list argument returns a `Signature`
error; neither panics nor returns nil. -/
theorem claim10_head_tail_errors :
    headFn [.cons []] =
      .error (.Custom 10 "cannot get the tail of an empty list") ∧
    tailFn [.cons []] =
      .error (.Custom 11 "cannot get the tail of an empty list") ∧
    (∀ x : Expression, (∀ l, x ≠ .cons l) →
      headFn [x] = .error (.Signature "any, cons" "not that") ∧
      tailFn [x] = .error (.Signature "any, cons" "not that")) := by
  refine ⟨rfl, rfl, ?_⟩
  intro x hx
  cases x
  case cons l => exact absurd rfl (hx l)
  all_goals exact ⟨rfl, rfl⟩

/-- C10 witness. -/
theorem claim10_head_tail_errors_witness :
    (∀ l, Expression.num 3 ≠ .cons l) ∧
    headFn [.num 3] = .error (.Signature "any, cons" "not that") ∧
    tailFn [.num 3] = .error (.Signature "any, cons" "not that") :=
  ⟨fun _ h => Expression.noConfusion h,
    (claim10_head_tail_errors.2.2 (.num 3)
      (fun _ h => Expression.noConfusion h)).1,
    (claim10_head_tail_errors.2.2 (.num 3)
      (fun _ h => Expression.noConfusion h)).2⟩

end Rlisp
